import Mathlib

/-!
A shallow embedding of the MAX7219 seven-segment display driver
(`src/MAX7219.js`).  Each method of the `MAX7219` prototype becomes a
function from a controller state to an `Outcome`: the post state, the
list of two-byte frames shifted out on the SPI bus, and an optional
JavaScript exception.  The file runs under `"use strict"`, so evaluating
an identifier that is not in scope raises a `ReferenceError`.
-/

namespace MAX7219

/-- JavaScript exceptions observable from the driver: `thrown s` models
`throw s` of a string literal, `refError x` models the `ReferenceError`
raised when the unbound identifier `x` is evaluated in strict mode. -/
inductive JsErr where
  | thrown (msg : String)
  | refError (ident : String)
deriving DecidableEq, Repr

/-- Register addresses from `MAX7219._Registers` (source lines 57-72). -/
def Registers.NoOp : Nat := 0x00

def Registers.Digit0 : Nat := 0x01

def Registers.Digit1 : Nat := 0x02

def Registers.Digit2 : Nat := 0x03

def Registers.Digit3 : Nat := 0x04

def Registers.Digit4 : Nat := 0x05

def Registers.Digit5 : Nat := 0x06

def Registers.Digit6 : Nat := 0x07

def Registers.Digit7 : Nat := 0x08

def Registers.DecodeMode : Nat := 0x09

def Registers.Intensity : Nat := 0x0a

def Registers.ScanLimit : Nat := 0x0b

def Registers.Shutdown : Nat := 0x0c

def Registers.DisplayTest : Nat := 0x0f

/-- Font table `MAX7219._Font` (source lines 77-126), an object literal
mapping single characters to segment patterns; the JavaScript source
writes each value as `parseInt('…', 2)`, rendered here as a binary
literal.  `'\!'` and `'\.'` in the source are the plain characters
`!` and `.` (the backslash escapes are redundant in JavaScript). -/
def fontTable : List (Char × Nat) :=
  [ ('0', 0b1111110), ('1', 0b0110000), ('2', 0b1101101), ('3', 0b1111001),
    ('4', 0b0110011), ('5', 0b1011011), ('6', 0b1011111), ('7', 0b1110000),
    ('8', 0b1111111), ('9', 0b1111011),
    ('a', 0b1110111), ('b', 0b0011111), ('c', 0b0001101), ('d', 0b0111101),
    ('E', 0b1001111), ('e', 0b1101111), ('f', 0b1000111), ('g', 0b1111011),
    ('H', 0b0110111), ('h', 0b0010111), ('i', 0b0010000), ('j', 0b0111100),
    ('k', 0b1010111), ('l', 0b0001110), ('m', 0b1110110), ('n', 0b0010101),
    ('o', 0b0011101), ('p', 0b1100111), ('q', 0b1110011), ('r', 0b0000101),
    ('s', 0b1011011), ('t', 0b0001111), ('u', 0b0011100), ('v', 0b0011100),
    ('w', 0b0011100), ('x', 0b0110111), ('y', 0b0111011), ('z', 0b1101101),
    ('-', 0b0000001), ('_', 0b0001000), ('[', 0b1001110), ('(', 0b1001110),
    (']', 0b1111000), (')', 0b1111000), ('°', 0b1100011), ('!', 0b10100000),
    ('\'', 0b0100000), ('.', 0b10000000) ]

/-- Property lookup `MAX7219._Font[symbol]`: `some` for a key present in
the object literal, `none` for the JavaScript `undefined` of a miss. -/
def font (symbol : Char) : Option Nat :=
  (fontTable.find? (fun p => p.1 == symbol)).map (fun p => p.2)

/-- Blank pattern `MAX7219._BLANK = parseInt('00000000', 2)` (line 128). -/
def BLANK : Nat := 0b00000000

/-- Arithmetic of `encodeByte` (source lines 388-397):
`bits[0] + (bits[1] << 1) + … + (bits[7] << 7)`.  A JavaScript index past
the end of the array yields `undefined`, which `<<` coerces to `0`;
`List.getD i 0` renders both the in-range and the out-of-range case of
the shifted terms. -/
def encodeByteVal (bits : List Nat) : Nat :=
  bits.getD 0 0 +
  (bits.getD 1 0 <<< 1) +
  (bits.getD 2 0 <<< 2) +
  (bits.getD 3 0 <<< 3) +
  (bits.getD 4 0 <<< 4) +
  (bits.getD 5 0 <<< 5) +
  (bits.getD 6 0 <<< 6) +
  (bits.getD 7 0 <<< 7)

/-- Result of `encodeByte(bits)`.  The first term `bits[0]` is added
without a shift, so on an empty array it is `undefined` and
`undefined + n` is `NaN`; `none` models that `NaN` result.  On any
non-empty array the call returns the number `encodeByteVal bits`.
`encodeByte` performs no length validation of its own. -/
def encodeByte (bits : List Nat) : Option Nat :=
  match bits with
  | [] => none
  | _ :: _ => some (encodeByteVal bits)

/-- Mutable state of a `MAX7219` instance: `_bus`, `_activeController`,
`_totalControllers`, the SPI handle `_spi` (`some d` = an open handle
bound to device `d`, `none` = no open handle), and `_decodeModes`
(`none` until `setDecodeMode` first assigns it). -/
structure Ctrl where
  bus : Int
  activeController : Int
  totalControllers : Int
  spi : Option Int
  decodeModes : Option (List Nat)
deriving DecidableEq, Repr

/-- Observable outcome of one method call: the post state, the two-byte
frames handed to `spi.transfer` in order, and the exception the call
threw, if any.  JavaScript exceptions propagate to the caller but
mutations of `this` made before the throw persist, so the post state is
reported even when `err` is `some`. -/
structure Outcome where
  ctrl : Ctrl
  writes : List (Nat × Nat)
  err : Option JsErr
deriving DecidableEq, Repr

/-- Method `_shiftOut(firstByte, secondByte)` (lines 409-422): throws if
no SPI handle is present (`if (!this._spi)`), otherwise hands
`Buffer.from([firstByte, secondByte])` to `spi.transfer`; `Buffer.from`
truncates each entry to a byte, hence the `% 256`. -/
def shiftOut (c : Ctrl) (firstByte secondByte : Nat) : Outcome :=
  if c.spi = none then ⟨c, [], some (.thrown "SPI device not initialized")⟩
  else ⟨c, [(firstByte % 256, secondByte % 256)], none⟩

/-- Method `setActiveController(index)` (lines 137-144).  After the
bounds guard, line 141 `this._spi.closeSync()` releases the open handle;
line 142 then evaluates `SPI.openSync(bus, index)`, and the bare
identifier `bus` is not in scope (the constructor stored the bus in
`this._bus`), so a `ReferenceError` is raised before a new handle is
opened and before `this._activeController = index` runs. -/
def setActiveController (c : Ctrl) (index : Int) : Outcome :=
  if index < 0 ∨ index ≥ c.totalControllers then
    ⟨c, [], some (.thrown "Controller index is out of bounds")⟩
  else
    ⟨{ c with spi := none }, [], some (.refError "bus")⟩

/-- Lookup `MAX7219._Registers["Digit" + n]` (lines 287 and 317): the
key exists exactly for integer `n` in `[0,7]`, where register `Digit n`
is `n + 1`; any other key yields `undefined`, which `Buffer.from` later
coerces to the byte `0` (the NoOp address). -/
def digitRegister (n : Int) : Nat :=
  if 0 ≤ n ∧ n ≤ 7 then (n + 1).toNat else Registers.NoOp

/-- Method `setDecodeMode(modes)` (lines 219-225): rejects any array
whose length is not 8, otherwise stores `modes` in `this._decodeModes`
and shifts out the packed byte to the DecodeMode register.  In the
success branch `modes` is non-empty, so `this.encodeByte(modes)` is the
number `encodeByteVal modes` (the `NaN` case of `encodeByte` is
unreachable here). -/
def setDecodeMode (c : Ctrl) (modes : List Nat) : Outcome :=
  if modes.length ≠ 8 then ⟨c, [], some (.thrown "Invalid decode mode array")⟩
  else
    shiftOut { c with decodeModes := some modes } Registers.DecodeMode (encodeByteVal modes)

/-- Method `setDecodeNone()` (lines 233-235). -/
def setDecodeNone (c : Ctrl) : Outcome :=
  setDecodeMode c [0, 0, 0, 0, 0, 0, 0, 0]

/-- Method `setDecodeAll()` (lines 243-245). -/
def setDecodeAll (c : Ctrl) : Outcome :=
  setDecodeMode c [1, 1, 1, 1, 1, 1, 1, 1]

/-- Method `setDigitSegments(n, segment)` (lines 270-278).  The
parameter is declared `segment`, but the body reads `segments.length`
and `this.encodeByte(segments)`; no binding named `segments` is in
scope, so under `"use strict"` every call that passes the digit-range
guard raises a `ReferenceError` before any packing or any write. -/
def setDigitSegments (c : Ctrl) (n : Int) (segment : List Nat) : Outcome :=
  if n < 0 ∨ n > 7 then ⟨c, [], some (.thrown "Invalid digit number")⟩
  else ⟨c, [], some (.refError "segments")⟩

/-- Method `setDigitSegmentsByte(n, byte)` (lines 286-288). -/
def setDigitSegmentsByte (c : Ctrl) (n : Int) (byte : Nat) : Outcome :=
  shiftOut c (digitRegister n) byte

/-- Method `setDigitSymbol(n, symbol, dp)` (lines 306-318): guard on
`n`, font lookup with fallback to `MAX7219._BLANK`, then
`hexSymbol | (dp ? (1 << 7) : 0)` shifted out to digit register `n`. -/
def setDigitSymbol (c : Ctrl) (n : Int) (symbol : Char) (dp : Bool) : Outcome :=
  if n < 0 ∨ n > 7 then ⟨c, [], some (.thrown "Invalid digit number")⟩
  else
    let hexSymbol := match font symbol with
      | none => BLANK
      | some v => v
    let byte := hexSymbol ||| (if dp then 1 <<< 7 else 0)
    shiftOut c (digitRegister n) byte

/-- Loop body of `clearDisplay` (lines 335-342): for each stored mode,
digit `i` gets `setDigitSegmentsByte(i, 0x00)` when the mode is 0 and
`setDigitSymbol(i, " ", false)` otherwise; an exception stops the loop
and propagates. -/
def clearDisplayLoop (c : Ctrl) (modes : List Nat) (i : Nat) : Outcome :=
  match modes with
  | [] => ⟨c, [], none⟩
  | mode :: rest =>
    let o := if mode = 0 then setDigitSegmentsByte c (i : Int) 0x00
             else setDigitSymbol c (i : Int) ' ' false
    match o.err with
    | some e => ⟨o.ctrl, o.writes, some e⟩
    | none =>
      let o₂ := clearDisplayLoop o.ctrl rest (i + 1)
      ⟨o₂.ctrl, o.writes ++ o₂.writes, o₂.err⟩

/-- Method `clearDisplay()` (lines 330-343): when `this._decodeModes`
has never been set, first calls `setDecodeNone()`, then iterates over
the stored vector.  When the loop runs, `_decodeModes` has been
assigned (either it already was, or `setDecodeNone` just stored the
all-zero vector), so the `[]` default of `getD` is unreachable. -/
def clearDisplay (c : Ctrl) : Outcome :=
  let o₀ := if c.decodeModes = none then setDecodeNone c else ⟨c, [], none⟩
  match o₀.err with
  | some e => ⟨o₀.ctrl, o₀.writes, some e⟩
  | none =>
    let o₁ := clearDisplayLoop o₀.ctrl (o₀.ctrl.decodeModes.getD []) 0
    ⟨o₁.ctrl, o₀.writes ++ o₁.writes, o₁.err⟩

/-- Method `setScanLimit(limit)` (lines 372-377): guard on `[1,8]`,
then `limit - 1` is shifted out to the ScanLimit register.  The guard
gives `1 ≤ limit`, so `Int.toNat` is exact on `limit - 1`. -/
def setScanLimit (c : Ctrl) (limit : Int) : Outcome :=
  if limit < 1 ∨ limit > 8 then ⟨c, [], some (.thrown "Invalid scan limit number")⟩
  else shiftOut c Registers.ScanLimit (limit - 1).toNat

/-- Method `setDisplayIntensity(brightness)` (lines 354-359). -/
def setDisplayIntensity (c : Ctrl) (brightness : Int) : Outcome :=
  if brightness < 0 ∨ brightness > 15 then
    ⟨c, [], some (.thrown "Invalid brightness number")⟩
  else shiftOut c Registers.Intensity brightness.toNat

/-- Specification-side decoder used to state that the bit packing of
`encodeByte` is a bijection: bit `i` of the byte becomes element `i` of
the sequence. -/
def decodeBits (v : Nat) : List Nat :=
  (List.range 8).map (fun i => if v.testBit i then 1 else 0)

end MAX7219

namespace MAX7219

theorem exists_eight {α : Type} (l : List α) (h : l.length = 8) :
    ∃ a₀ a₁ a₂ a₃ a₄ a₅ a₆ a₇, l = [a₀, a₁, a₂, a₃, a₄, a₅, a₆, a₇] := by
  rcases l with _ | ⟨a₀, _ | ⟨a₁, _ | ⟨a₂, _ | ⟨a₃, _ | ⟨a₄, _ | ⟨a₅, _ | ⟨a₆, _ | ⟨a₇, rest⟩⟩⟩⟩⟩⟩⟩⟩ <;>
    simp_all

theorem digitRegister_lt (n : Int) : digitRegister n < 256 := by
  unfold digitRegister
  split
  · omega
  · decide

theorem font_getD_lt (symbol : Char) : (font symbol).getD BLANK < 256 := by
  unfold font
  cases hf : fontTable.find? (fun p => p.1 == symbol) with
  | none => simp [BLANK]
  | some p =>
    have hm : p ∈ fontTable := List.mem_of_find?_eq_some hf
    have hb : ∀ q ∈ fontTable, q.2 < 256 := by decide
    simpa using hb p hm

theorem setDigitSymbol_eq (c : Ctrl) (n : Int) (symbol : Char) (dp : Bool)
    (h : ¬(n < 0 ∨ n > 7)) :
    setDigitSymbol c n symbol dp =
      shiftOut c (digitRegister n)
        ((font symbol).getD BLANK ||| (if dp then 128 else 0)) := by
  unfold setDigitSymbol
  rw [if_neg h]
  cases hf : font symbol <;> simp [hf, BLANK]

end MAX7219

namespace MAX7219

/-- C1: contrary to the claim, `setDigitSegments(n, bits)` never succeeds.
For every controller state, every digit index `n` in `[0,7]` and every
bit array, the call raises a `ReferenceError` before packing anything and
before any write: the body reads the identifier `segments`, but the
parameter is named `segment`, so `segments` is unbound. -/
theorem setDigitSegments_raises_referenceError (c : Ctrl) (n : Int) (bits : List Nat)
    (h₀ : 0 ≤ n) (h₁ : n ≤ 7) :
    setDigitSegments c n bits = ⟨c, [], some (.refError "segments")⟩ := by
  unfold setDigitSegments
  rw [if_neg (by omega)]

/-- Witness for C1 at the file-header example call
`setDigitSegments(0, [0, 0, 1, 1, 0, 1, 1, 1])`. -/
theorem setDigitSegments_raises_referenceError_witness :
    setDigitSegments ⟨0, 0, 1, some 0, none⟩ 0 [0, 0, 1, 1, 0, 1, 1, 1] =
      ⟨⟨0, 0, 1, some 0, none⟩, [], some (.refError "segments")⟩ :=
  setDigitSegments_raises_referenceError _ _ _ (by decide) (by decide)

/-- C2: contrary to the claim, `setActiveController(index)` never succeeds
on an in-bounds index: it closes the current SPI handle and then raises a
`ReferenceError` evaluating the unbound identifier `bus`, leaving the
controller with zero open handles and `_activeController` unchanged. -/
theorem setActiveController_closes_then_raises (c : Ctrl) (index : Int)
    (h₀ : 0 ≤ index) (h₁ : index < c.totalControllers) :
    setActiveController c index =
      ⟨{ c with spi := none }, [], some (.refError "bus")⟩ := by
  unfold setActiveController
  rw [if_neg (by omega)]

/-- Witness for C2: selecting controller 1 of 2 with a handle open on
device 0 closes the handle, throws, and keeps `_activeController = 0`. -/
theorem setActiveController_closes_then_raises_witness :
    setActiveController ⟨0, 0, 2, some 0, none⟩ 1 =
      ⟨⟨0, 0, 2, none, none⟩, [], some (.refError "bus")⟩ :=
  setActiveController_closes_then_raises _ _ (by decide) (by decide)

/-- C8: for every index outside `[0, totalControllers)` the call fails
with the out-of-bounds error and returns with the state — in particular
the open SPI handle and `_activeController` — untouched and nothing
written. -/
theorem setActiveController_out_of_bounds (c : Ctrl) (index : Int)
    (h : index < 0 ∨ c.totalControllers ≤ index) :
    setActiveController c index =
      ⟨c, [], some (.thrown "Controller index is out of bounds")⟩ := by
  unfold setActiveController
  rw [if_pos h]

/-- Witness for C8 at `index = 5` on a two-controller chain. -/
theorem setActiveController_out_of_bounds_witness :
    setActiveController ⟨0, 0, 2, some 0, none⟩ 5 =
      ⟨⟨0, 0, 2, some 0, none⟩, [], some (.thrown "Controller index is out of bounds")⟩ :=
  setActiveController_out_of_bounds _ _ (by decide)

/-- C9: `setScanLimit(limit)` fails for every limit outside `[1,8]`, and
for every limit in `[1,8]` (given an open SPI handle) writes the single
frame `(ScanLimit, limit - 1)`; so limit 1 produces wire byte 0x00 and
limit 8 produces wire byte 0x07. -/
theorem setScanLimit_spec :
    (∀ (c : Ctrl) (limit : Int), limit < 1 ∨ 8 < limit →
       setScanLimit c limit = ⟨c, [], some (.thrown "Invalid scan limit number")⟩) ∧
    (∀ (c : Ctrl) (limit : Int), c.spi ≠ none → 1 ≤ limit → limit ≤ 8 →
       setScanLimit c limit =
         ⟨c, [(Registers.ScanLimit, (limit - 1).toNat)], none⟩) := by
  constructor
  · intro c limit h
    unfold setScanLimit
    rw [if_pos h]
  · intro c limit hspi h₁ h₈
    unfold setScanLimit shiftOut
    rw [if_neg (by omega), if_neg hspi]
    have hx : (limit - 1).toNat % 256 = (limit - 1).toNat :=
      Nat.mod_eq_of_lt (by omega)
    simp only [Registers.ScanLimit, hx]

/-- Witness for C9: limits 1 and 8 produce wire bytes 0x00 and 0x07;
limits 0 and 9 fail. -/
theorem setScanLimit_spec_witness :
    setScanLimit ⟨0, 0, 1, some 0, none⟩ 1 =
      ⟨⟨0, 0, 1, some 0, none⟩, [(Registers.ScanLimit, 0x00)], none⟩ ∧
    setScanLimit ⟨0, 0, 1, some 0, none⟩ 8 =
      ⟨⟨0, 0, 1, some 0, none⟩, [(Registers.ScanLimit, 0x07)], none⟩ ∧
    setScanLimit ⟨0, 0, 1, some 0, none⟩ 0 =
      ⟨⟨0, 0, 1, some 0, none⟩, [], some (.thrown "Invalid scan limit number")⟩ ∧
    setScanLimit ⟨0, 0, 1, some 0, none⟩ 9 =
      ⟨⟨0, 0, 1, some 0, none⟩, [], some (.thrown "Invalid scan limit number")⟩ :=
  ⟨setScanLimit_spec.2 _ 1 (by decide) (by decide) (by decide),
   setScanLimit_spec.2 _ 8 (by decide) (by decide) (by decide),
   setScanLimit_spec.1 _ 0 (by decide),
   setScanLimit_spec.1 _ 9 (by decide)⟩

end MAX7219

namespace MAX7219

/-- C7: `setDecodeMode` with a vector whose length is not 8 throws
"Invalid decode mode array" with the state unchanged and nothing written
to the bus; with `[1,0,1,0,1,0,1,0]` (and an open SPI handle) it stores
the vector and writes data byte 0x55 to the DecodeMode register. -/
theorem setDecodeMode_length_guard_and_wire_byte :
    (∀ (c : Ctrl) (modes : List Nat), modes.length ≠ 8 →
       setDecodeMode c modes = ⟨c, [], some (.thrown "Invalid decode mode array")⟩) ∧
    (∀ c : Ctrl, c.spi ≠ none →
       setDecodeMode c [1, 0, 1, 0, 1, 0, 1, 0] =
         ⟨{ c with decodeModes := some [1, 0, 1, 0, 1, 0, 1, 0] },
          [(Registers.DecodeMode, 0x55)], none⟩) := by
  constructor
  · intro c modes h
    unfold setDecodeMode
    rw [if_pos h]
  · intro c hspi
    unfold setDecodeMode shiftOut
    rw [if_neg (by decide)]
    simp only [Ctrl.mk.injEq]
    rw [if_neg (by simpa using hspi)]
    simp [Registers.DecodeMode, encodeByteVal]

/-- Witness for C7: a 7-element vector fails without a write; the
alternating vector writes 0x55. -/
theorem setDecodeMode_length_guard_and_wire_byte_witness :
    setDecodeMode ⟨0, 0, 1, some 0, none⟩ [1, 0, 1, 0, 1, 0, 1] =
      ⟨⟨0, 0, 1, some 0, none⟩, [], some (.thrown "Invalid decode mode array")⟩ ∧
    setDecodeMode ⟨0, 0, 1, some 0, none⟩ [1, 0, 1, 0, 1, 0, 1, 0] =
      ⟨⟨0, 0, 1, some 0, some [1, 0, 1, 0, 1, 0, 1, 0]⟩,
       [(Registers.DecodeMode, 0x55)], none⟩ :=
  ⟨setDecodeMode_length_guard_and_wire_byte.1 _ _ (by decide),
   setDecodeMode_length_guard_and_wire_byte.2 _ (by decide)⟩

/-- C3 counterexample: `encodeByte` does not reject a 3-element input;
the call returns the number 7 rather than failing. -/
theorem encodeByte_accepts_short_input :
    ([1, 1, 1] : List Nat).length ≠ 8 ∧ encodeByte [1, 1, 1] = some 7 := by
  decide

/-- C3 amended: `encodeByte` performs no length validation of its own:
every non-empty input is encoded to a number, only indices 0..7 are
read (an index past the end contributes 0), and only the empty input
yields NaN.  The length-8 rejection the spec attributes to the codec is
enforced by the caller `setDecodeMode` before `encodeByte` runs. -/
theorem encodeByte_no_length_validation :
    (∀ bits : List Nat, bits ≠ [] → encodeByte bits = some (encodeByteVal bits)) ∧
    (∀ bits bits₂ : List Nat, (∀ i, i < 8 → bits.getD i 0 = bits₂.getD i 0) →
       encodeByteVal bits = encodeByteVal bits₂) ∧
    encodeByte ([] : List Nat) = none ∧
    (∀ (c : Ctrl) (modes : List Nat), modes.length ≠ 8 →
       setDecodeMode c modes = ⟨c, [], some (.thrown "Invalid decode mode array")⟩) := by
  refine ⟨?_, ?_, rfl, ?_⟩
  · intro bits h
    cases bits with
    | nil => exact absurd rfl h
    | cons b rest => rfl
  · intro bits bits₂ h
    unfold encodeByteVal
    rw [h 0 (by omega), h 1 (by omega), h 2 (by omega), h 3 (by omega),
        h 4 (by omega), h 5 (by omega), h 6 (by omega), h 7 (by omega)]
  · intro c modes h
    unfold setDecodeMode
    rw [if_pos h]

/-- Witness for C3's amended claim at the short input `[1,1,1]` and at a
pair of lists agreeing on indices 0..7. -/
theorem encodeByte_no_length_validation_witness :
    encodeByte [1, 1, 1] = some (encodeByteVal [1, 1, 1]) ∧
    encodeByteVal [1, 1, 1, 0, 0, 0, 0, 0, 9] = encodeByteVal [1, 1, 1] :=
  ⟨encodeByte_no_length_validation.1 _ (by decide),
   encodeByte_no_length_validation.2.1 _ _ (by decide)⟩

/-- C5: for every controller with an open SPI handle, every digit `n` in
`[0,7]`, every symbol and every `dp` flag, `setDigitSymbol` succeeds and
writes one frame to digit register `n` carrying the font value of the
symbol (the blank pattern 0 on a table miss) OR-ed with 0x80 exactly
when `dp` is set; it fails (with "Invalid digit number") exactly when
`n` is outside `[0,7]`, never on an unknown symbol.  Concretely,
`setDigitSymbol(3, '9', true)` writes `Font['9'] ||| 0x80 = 0xFB` to the
Digit3 register. -/
theorem setDigitSymbol_spec :
    (∀ (c : Ctrl) (n : Int) (symbol : Char) (dp : Bool),
       c.spi ≠ none → 0 ≤ n → n ≤ 7 →
       setDigitSymbol c n symbol dp =
         ⟨c, [(digitRegister n, (font symbol).getD BLANK ||| (if dp then 0x80 else 0))],
          none⟩) ∧
    (∀ (c : Ctrl) (n : Int) (symbol : Char) (dp : Bool), ¬(0 ≤ n ∧ n ≤ 7) →
       setDigitSymbol c n symbol dp = ⟨c, [], some (.thrown "Invalid digit number")⟩) ∧
    (∀ c : Ctrl, c.spi ≠ none →
       setDigitSymbol c 3 '9' true = ⟨c, [(Registers.Digit3, 0xFB)], none⟩) ∧
    font '9' = some 0x7B ∧ (0x7B : Nat) ||| 0x80 = 0xFB := by
  have main : ∀ (c : Ctrl) (n : Int) (symbol : Char) (dp : Bool),
      c.spi ≠ none → 0 ≤ n → n ≤ 7 →
      setDigitSymbol c n symbol dp =
        ⟨c, [(digitRegister n, (font symbol).getD BLANK ||| (if dp then 0x80 else 0))],
         none⟩ := by
    intro c n symbol dp hspi h₀ h₇
    rw [setDigitSymbol_eq c n symbol dp (by omega)]
    unfold shiftOut
    rw [if_neg hspi]
    have hreg : digitRegister n % 256 = digitRegister n :=
      Nat.mod_eq_of_lt (digitRegister_lt n)
    have hbyte : ((font symbol).getD BLANK ||| (if dp then 128 else 0)) % 256 =
        (font symbol).getD BLANK ||| (if dp then 128 else 0) := by
      refine Nat.mod_eq_of_lt ?_
      have h₁ : (font symbol).getD BLANK < 2 ^ 8 := font_getD_lt symbol
      have h₂ : (if dp then 128 else 0) < 2 ^ 8 := by cases dp <;> decide
      exact Nat.or_lt_two_pow h₁ h₂
    rw [hreg, hbyte]
  refine ⟨main, ?_, ?_, by decide, by decide⟩
  · intro c n symbol dp h
    unfold setDigitSymbol
    rw [if_pos (by omega)]
  · intro c hspi
    rw [main c 3 '9' true hspi (by decide) (by decide)]
    have h9 : font '9' = some 0x7B := by decide
    rw [h9]
    simp [Registers.Digit3, digitRegister]

/-- Witness for C5: a digit write with the decimal point, an unknown
symbol falling back to blank, and an out-of-range digit failing. -/
theorem setDigitSymbol_spec_witness :
    setDigitSymbol ⟨0, 0, 1, some 0, none⟩ 3 '9' true =
      ⟨⟨0, 0, 1, some 0, none⟩, [(Registers.Digit3, 0xFB)], none⟩ ∧
    setDigitSymbol ⟨0, 0, 1, some 0, none⟩ 0 '?' false =
      ⟨⟨0, 0, 1, some 0, none⟩, [(digitRegister 0, (font '?').getD BLANK ||| 0)], none⟩ ∧
    setDigitSymbol ⟨0, 0, 1, some 0, none⟩ 8 '9' false =
      ⟨⟨0, 0, 1, some 0, none⟩, [], some (.thrown "Invalid digit number")⟩ :=
  ⟨setDigitSymbol_spec.2.2.1 _ (by decide),
   setDigitSymbol_spec.1 _ 0 '?' false (by decide) (by decide) (by decide),
   setDigitSymbol_spec.2.1 _ 8 '9' false (by decide)⟩

end MAX7219

namespace MAX7219

theorem clearDisplayLoop_writes (c : Ctrl) (h : c.spi ≠ none) :
    ∀ (modes : List Nat) (i : Nat), i + modes.length ≤ 8 →
      clearDisplayLoop c modes i =
        ⟨c, (List.range modes.length).map (fun k => (i + k + 1, 0)), none⟩ := by
  intro modes
  induction modes with
  | nil =>
    intro i hi
    simp [clearDisplayLoop]
  | cons m rest ih =>
    intro i hi
    have hstep : (if m = 0 then setDigitSegmentsByte c (i : Int) 0x00
        else setDigitSymbol c (i : Int) ' ' false) =
        ⟨c, [(i + 1, 0)], none⟩ := by
      have hreg : digitRegister (i : Int) = i + 1 := by
        unfold digitRegister
        rw [if_pos (by simp at hi; omega)]
        omega
      have hmod : (i + 1) % 256 = i + 1 := Nat.mod_eq_of_lt (by omega)
      split
      · unfold setDigitSegmentsByte shiftOut
        rw [if_neg h, hreg, hmod]
      · rw [setDigitSymbol_eq c (i : Int) ' ' false (by simp at hi; omega)]
        unfold shiftOut
        rw [if_neg h, hreg, hmod]
        have hblank : (font ' ').getD BLANK ||| (if false then 128 else 0) = 0 := by decide
        rw [hblank]
    unfold clearDisplayLoop
    rw [hstep]
    simp only
    rw [ih (i + 1) (by simp at hi; omega)]
    have hw : (i + 1, 0) :: List.map (fun k => (i + 1 + k + 1, 0)) (List.range rest.length) =
        List.map (fun k => (i + k + 1, (0 : Nat))) (List.range (rest.length + 1)) := by
      rw [List.range_succ_eq_map, List.map_cons, List.map_map]
      refine List.cons_eq_cons.mpr ⟨by simp, ?_⟩
      refine (List.map_congr_left ?_).symm
      intro k hk
      simp only [Function.comp_apply, Prod.mk.injEq]
      exact ⟨by omega, trivial⟩
    simp only [List.length_cons, List.singleton_append]
    rw [hw]

end MAX7219

namespace MAX7219

/-- C10: on a controller whose decode-mode vector was never set (and with
an open SPI handle), `clearDisplay` first issues a real DecodeMode
register write with data byte 0x00 (via `setDecodeNone`) and then the
eight per-digit writes, leaving the stored vector all-no-decode; on a
controller whose vector was already set (to any 8-element vector),
`clearDisplay` issues exactly the eight digit writes and no write to the
DecodeMode register. -/
theorem clearDisplay_decode_mode_write :
    (∀ c : Ctrl, c.spi ≠ none → c.decodeModes = none →
       clearDisplay c =
         ⟨{ c with decodeModes := some [0, 0, 0, 0, 0, 0, 0, 0] },
          (Registers.DecodeMode, 0x00) :: (List.range 8).map (fun k => (k + 1, 0x00)),
          none⟩) ∧
    (∀ (c : Ctrl) (modes : List Nat), c.spi ≠ none → c.decodeModes = some modes →
       modes.length = 8 →
       clearDisplay c = ⟨c, (List.range 8).map (fun k => (k + 1, 0x00)), none⟩ ∧
       ∀ w ∈ (clearDisplay c).writes, w.1 ≠ Registers.DecodeMode) := by
  have hmap0 : ∀ k : Nat, 0 + k + 1 = k + 1 := fun k => by omega
  constructor
  · intro c hspi hdm
    have h₀ : setDecodeNone c =
        ⟨{ c with decodeModes := some [0, 0, 0, 0, 0, 0, 0, 0] },
         [(Registers.DecodeMode, 0x00)], none⟩ := by
      unfold setDecodeNone setDecodeMode shiftOut
      rw [if_neg (by decide)]
      rw [if_neg (by simpa using hspi)]
      simp [Registers.DecodeMode, encodeByteVal]
    have hspi₂ : ({ c with decodeModes := some [0, 0, 0, 0, 0, 0, 0, 0] } : Ctrl).spi ≠ none := by
      simpa using hspi
    unfold clearDisplay
    rw [hdm]
    simp only [reduceIte, h₀, Option.getD_some]
    rw [clearDisplayLoop_writes _ hspi₂ _ 0 (by decide)]
    simp [hmap0]
  · intro c modes hspi hdm hlen
    have h₁ : clearDisplay c = ⟨c, (List.range 8).map (fun k => (k + 1, 0x00)), none⟩ := by
      unfold clearDisplay
      rw [hdm]
      simp only [reduceCtorEq, ite_false, Option.getD_some]
      simp only [hdm, Option.getD_some]
      rw [clearDisplayLoop_writes c hspi modes 0 (by omega)]
      simp [hlen, hmap0]
    refine ⟨h₁, ?_⟩
    rw [h₁]
    intro w hw
    simp only [List.mem_map, List.mem_range] at hw
    obtain ⟨k, hk, rfl⟩ := hw
    simp [Registers.DecodeMode]
    omega

end MAX7219

namespace MAX7219

/-- C6: after `setDecodeAll` has stored the all-decode vector,
`clearDisplay` succeeds and its bus traffic is exactly the concatenation
of the frames produced by the symbol path `setDigitSymbol(i, " ", false)`
for digits 0..7 — the blank-symbol frame, since the space character is
not in the font table — one frame per digit register, with no raw-segment
path taken (every stored decode bit is set). -/
theorem clearDisplay_after_setDecodeAll (c : Ctrl) (hspi : c.spi ≠ none) :
    (setDecodeAll c).err = none ∧
    (setDecodeAll c).ctrl.decodeModes = some [1, 1, 1, 1, 1, 1, 1, 1] ∧
    clearDisplay (setDecodeAll c).ctrl =
      ⟨(setDecodeAll c).ctrl,
       (List.range 8).flatMap
         (fun i => (setDigitSymbol (setDecodeAll c).ctrl (i : Int) ' ' false).writes),
       none⟩ ∧
    (∀ i : Nat, i < 8 →
       (setDigitSymbol (setDecodeAll c).ctrl (i : Int) ' ' false).writes =
         [(i + 1, BLANK)]) := by
  have hall : setDecodeAll c =
      ⟨{ c with decodeModes := some [1, 1, 1, 1, 1, 1, 1, 1] },
       [(Registers.DecodeMode, 0xFF)], none⟩ := by
    unfold setDecodeAll setDecodeMode shiftOut
    rw [if_neg (by decide)]
    rw [if_neg (by simpa using hspi)]
    simp [Registers.DecodeMode, encodeByteVal]
  have hspi₂ : ({ c with decodeModes := some [1, 1, 1, 1, 1, 1, 1, 1] } : Ctrl).spi ≠ none := by
    simpa using hspi
  have hsym : ∀ i : Nat, i < 8 →
      (setDigitSymbol ({ c with decodeModes := some [1, 1, 1, 1, 1, 1, 1, 1] } : Ctrl)
        (i : Int) ' ' false).writes = [(i + 1, BLANK)] := by
    intro i hi
    rw [setDigitSymbol_eq _ _ _ _ (by omega)]
    unfold shiftOut
    rw [if_neg hspi₂]
    have hreg : digitRegister (i : Int) = i + 1 := by
      unfold digitRegister
      rw [if_pos (by omega)]
      omega
    have hblank : (font ' ').getD BLANK ||| (if false then 128 else 0) = 0 := by decide
    rw [hreg, hblank]
    simp [BLANK, Nat.mod_eq_of_lt (show i + 1 < 256 by omega)]
  have hclear : clearDisplay ({ c with decodeModes := some [1, 1, 1, 1, 1, 1, 1, 1] } : Ctrl) =
      ⟨{ c with decodeModes := some [1, 1, 1, 1, 1, 1, 1, 1] },
       (List.range 8).map (fun k => (k + 1, 0)), none⟩ := by
    unfold clearDisplay
    simp only [reduceCtorEq, ite_false, Option.getD_some]
    rw [clearDisplayLoop_writes _ hspi₂ _ 0 (by decide)]
    have hmap0 : ∀ k : Nat, 0 + k + 1 = k + 1 := fun k => by omega
    simp [hmap0]
  have hflat : (List.range 8).flatMap
      (fun i => (setDigitSymbol ({ c with decodeModes := some [1, 1, 1, 1, 1, 1, 1, 1] } : Ctrl)
        (i : Int) ' ' false).writes) =
      (List.range 8).map (fun k => (k + 1, 0)) := by
    have hrange : List.range 8 = [0, 1, 2, 3, 4, 5, 6, 7] := rfl
    rw [hrange]
    simp only [List.flatMap_cons, List.flatMap_nil, List.map_cons, List.map_nil, List.append_nil]
    rw [hsym 0 (by omega), hsym 1 (by omega), hsym 2 (by omega), hsym 3 (by omega),
        hsym 4 (by omega), hsym 5 (by omega), hsym 6 (by omega), hsym 7 (by omega)]
    simp [BLANK]
  rw [hall]
  exact ⟨rfl, rfl, by rw [hclear, hflat], hsym⟩

/-- Witness for C6 on a freshly constructed single-controller state. -/
theorem clearDisplay_after_setDecodeAll_witness :
    clearDisplay (setDecodeAll ⟨0, 0, 1, some 0, none⟩).ctrl =
      ⟨(setDecodeAll ⟨0, 0, 1, some 0, none⟩).ctrl,
       (List.range 8).flatMap
         (fun i => (setDigitSymbol (setDecodeAll ⟨0, 0, 1, some 0, none⟩).ctrl (i : Int) ' ' false).writes),
       none⟩ :=
  (clearDisplay_after_setDecodeAll ⟨0, 0, 1, some 0, none⟩ (by decide)).2.2.1

end MAX7219

namespace MAX7219

set_option maxRecDepth 10000 in
/-- C4: the bit packing of `encodeByte` is a bijection between 8-element
bit sequences and the 256 bytes: for every 8-element 0/1 sequence, bit
`i` (0 = least significant) of the packed byte equals element `i`; the
packing is injective on such sequences and every byte below 256 is hit,
with `decodeBits` as two-sided inverse. -/
theorem encodeByte_bit_packing_bijection :
    (∀ bits : List Nat, bits.length = 8 → (∀ b ∈ bits, b ≤ 1) →
       encodeByteVal bits < 256 ∧
       (∀ i, i < 8 → ((encodeByteVal bits).testBit i = true ↔ bits.getD i 0 = 1)) ∧
       decodeBits (encodeByteVal bits) = bits) ∧
    (∀ v : Nat, v < 256 →
       (decodeBits v).length = 8 ∧ (∀ b ∈ decodeBits v, b ≤ 1) ∧
       encodeByteVal (decodeBits v) = v) ∧
    (∀ bits bits₂ : List Nat, bits.length = 8 → bits₂.length = 8 →
       (∀ b ∈ bits, b ≤ 1) → (∀ b ∈ bits₂, b ≤ 1) →
       encodeByteVal bits = encodeByteVal bits₂ → bits = bits₂) := by
  have part1 : ∀ bits : List Nat, bits.length = 8 → (∀ b ∈ bits, b ≤ 1) →
      encodeByteVal bits < 256 ∧
      (∀ i, i < 8 → ((encodeByteVal bits).testBit i = true ↔ bits.getD i 0 = 1)) ∧
      decodeBits (encodeByteVal bits) = bits := by
    intro bits hlen hle
    obtain ⟨b₀, b₁, b₂, b₃, b₄, b₅, b₆, b₇, rfl⟩ := exists_eight bits hlen
    have h₀ : b₀ ≤ 1 := hle b₀ (by simp)
    have h₁ : b₁ ≤ 1 := hle b₁ (by simp)
    have h₂ : b₂ ≤ 1 := hle b₂ (by simp)
    have h₃ : b₃ ≤ 1 := hle b₃ (by simp)
    have h₄ : b₄ ≤ 1 := hle b₄ (by simp)
    have h₅ : b₅ ≤ 1 := hle b₅ (by simp)
    have h₆ : b₆ ≤ 1 := hle b₆ (by simp)
    have h₇ : b₇ ≤ 1 := hle b₇ (by simp)
    interval_cases b₀ <;> interval_cases b₁ <;> interval_cases b₂ <;> interval_cases b₃ <;>
      interval_cases b₄ <;> interval_cases b₅ <;> interval_cases b₆ <;> interval_cases b₇ <;>
      decide
  refine ⟨part1, by decide, ?_⟩
  intro bits bits₂ hl₁ hl₂ hb₁ hb₂ heq
  have e₁ := (part1 bits hl₁ hb₁).2.2
  have e₂ := (part1 bits₂ hl₂ hb₂).2.2
  rw [← e₁, ← e₂, heq]

/-- Witness for C4 at the byte 0x55 and its bit sequence. -/
theorem encodeByte_bit_packing_bijection_witness :
    encodeByteVal (decodeBits 0x55) = 0x55 ∧
    decodeBits (encodeByteVal [1, 0, 1, 0, 1, 0, 1, 0]) = [1, 0, 1, 0, 1, 0, 1, 0] :=
  ⟨(encodeByte_bit_packing_bijection.2.1 0x55 (by decide)).2.2,
   (encodeByte_bit_packing_bijection.1 [1, 0, 1, 0, 1, 0, 1, 0] rfl (by decide)).2.2⟩

/-- Witness for C10: a freshly constructed controller gets the DecodeMode
0x00 frame first; one with a stored vector gets only digit frames. -/
theorem clearDisplay_decode_mode_write_witness :
    clearDisplay ⟨0, 0, 1, some 0, none⟩ =
      ⟨⟨0, 0, 1, some 0, some [0, 0, 0, 0, 0, 0, 0, 0]⟩,
       (Registers.DecodeMode, 0x00) :: (List.range 8).map (fun k => (k + 1, 0x00)),
       none⟩ ∧
    clearDisplay ⟨0, 0, 1, some 0, some [1, 0, 1, 0, 1, 0, 1, 0]⟩ =
      ⟨⟨0, 0, 1, some 0, some [1, 0, 1, 0, 1, 0, 1, 0]⟩,
       (List.range 8).map (fun k => (k + 1, 0x00)), none⟩ :=
  ⟨clearDisplay_decode_mode_write.1 _ (by decide) rfl,
   (clearDisplay_decode_mode_write.2 _ [1, 0, 1, 0, 1, 0, 1, 0] (by decide) rfl (by decide)).1⟩

end MAX7219
